import Mathlib

/-!
Shallow embedding of `data_reader.go` from ttreptow/go-telnet.

The Go file implements a TELNET data-channel decoder, `internalDataReader`,
holding a raw duplex transport (`wrapped`) and a `bufio.Reader` over it
(`buffered`).  Its `Read` method un-escapes TELNET data, answers option
negotiation offers on the transport's write side, scans sub-negotiations,
and on a compression announcement replaces `buffered` by a fresh
`bufio.Reader` over `zlib.NewReader(r.wrapped)`.

Modelling choices:
* Bytes are natural numbers (`Byte := Nat`); the protocol constants keep
  their source names and values.
* The underlying transport's read side is a list of chunks
  (`List (List Byte)`): each chunk is what one blocking `Read` call on the
  underlying reader returns, followed once exhausted by a terminal error
  `readEnd` (`io.EOF` for a cleanly closed transport, or an injected
  transport failure).  The `bufio.Reader` is modelled as `Source`:
  the bytes currently sitting in its buffer plus the not-yet-pulled chunks.
  `Source.readByte`, `Source.peek1` and `Source.discard` mirror
  `bufio.Reader.ReadByte`, `Peek(1)` and `Discard`; `buffered.length`
  mirrors `Buffered()`.
* The transport's write side records the written bytes in order
  (`DataReader.writes`); an injected write failure (`writeFail`) makes every
  write fail with that error, modelling transport write errors.
* `zlib.NewReader` is an external collaborator; the semantics is parametric
  in a `Factory` that maps the remaining raw chunk stream (what
  `r.wrapped`'s read side still holds) to either a construction error or the
  decompressed chunk stream.  The fresh `bufio.NewReader(zReader)` becomes a
  `Source` with an empty buffer over the factory's output.
* Both loops of the Go `Read` method are fueled: the inner sub-negotiation
  `for` loop of the source has no normal exit (its `break` statements only
  leave the inner `switch`), and the hand-off can replace the stream, so
  termination is not structural.  Fuel exhaustion yields `none`; every
  theorem below supplies enough fuel.
-/

namespace GoTelnet

/-- Byte values, 0..255, as natural numbers. -/
abbrev Byte := Nat

/-- `IAC = 255` from the source. -/
def IAC : Byte := 255

/-- `GA = 249` from the source. -/
def GA : Byte := 249

/-- `SB = 250` from the source. -/
def SB : Byte := 250

/-- `SE = 240` from the source. -/
def SE : Byte := 240

/-- `WILL = 251` from the source. -/
def WILL : Byte := 251

/-- `WONT = 252` from the source. -/
def WONT : Byte := 252

/-- `DO = 253` from the source. -/
def DO : Byte := 253

/-- `DONT = 254` from the source. -/
def DONT : Byte := 254

/-- `OPT_COMPRESS2 = 86` from the source. -/
def OPT_COMPRESS2 : Byte := 86

/-- Errors observable from the decoder: `eof` is `io.EOF`, `corrupted` is the
source's `errCorrupted = errors.New("Corrupted")`, `ioErr k` stands for an
arbitrary transport I/O error, `zlibErr k` for an error returned by
`zlib.NewReader`. -/
inductive Err where
  | eof
  | corrupted
  | ioErr (code : Nat)
  | zlibErr (code : Nat)
deriving DecidableEq

/-- The state of the `bufio.Reader`: bytes currently in its buffer, the
chunks the underlying reader will still produce, and the terminal error the
underlying reader yields once the chunks are exhausted. -/
structure Source where
  buffered : List Byte
  chunks : List (List Byte)
  readEnd : Err
deriving DecidableEq

/-- One `fill` of the `bufio.Reader`: pull underlying chunks until a
nonempty one arrives (a `Read` returning 0 bytes is retried), or fail with
the terminal error. -/
def fillChunks : List (List Byte) → Err → Except Err (Byte × List Byte × List (List Byte))
  | [], e => .error e
  | [] :: rest, e => fillChunks rest e
  | (b :: bs) :: rest, _ => .ok (b, bs, rest)

/-- `bufio.Reader.ReadByte`: return the next byte, filling if the buffer is
empty. -/
def Source.readByte (s : Source) : Except Err (Byte × Source) :=
  match s.buffered with
  | b :: bs => .ok (b, ⟨bs, s.chunks, s.readEnd⟩)
  | [] =>
    match fillChunks s.chunks s.readEnd with
    | .error e => .error e
    | .ok (b, bs, rest) => .ok (b, ⟨bs, rest, s.readEnd⟩)

/-- `bufio.Reader.Peek(1)`: return the next byte without consuming it,
filling if the buffer is empty. -/
def Source.peek1 (s : Source) : Except Err (Byte × Source) :=
  match s.buffered with
  | b :: _ => .ok (b, s)
  | [] =>
    match fillChunks s.chunks s.readEnd with
    | .error e => .error e
    | .ok (b, bs, rest) => .ok (b, ⟨b :: bs, rest, s.readEnd⟩)

/-- `bufio.Reader.Discard(k)`: skip the next `k` bytes, filling as needed;
an error if fewer than `k` bytes are available. -/
def Source.discard : Nat → Source → Except Err Source
  | 0, s => .ok s
  | k + 1, s =>
    match s.readByte with
    | .error e => .error e
    | .ok (_, s1) => Source.discard k s1

/-- The `internalDataReader`: its current buffered source, the bytes written
so far to the transport's write side, and an optionally injected write
failure. -/
structure DataReader where
  src : Source
  writes : List Byte
  writeFail : Option Err
deriving DecidableEq

/-- `r.wrapped.Write(bs)`. -/
def DataReader.write (r : DataReader) (bs : List Byte) : Except Err DataReader :=
  match r.writeFail with
  | some e => .error e
  | none => .ok { r with writes := r.writes ++ bs }

/-- `internalDataReader.handleOption` from the source: agree (`IAC DO opt`)
to `OPT_COMPRESS2`, decline (`IAC DONT opt`) everything else. -/
def DataReader.handleOption (r : DataReader) (opt : Byte) : Except Err DataReader :=
  if opt = OPT_COMPRESS2 then r.write [IAC, DO, opt]
  else r.write [IAC, DONT, opt]

/-- The decompressing-stream factory (`zlib.NewReader`), an external
collaborator: from the remaining raw chunk stream of the transport it either
fails or produces the decompressed chunk stream. -/
abbrev Factory := List (List Byte) → Except Err (List (List Byte))

/-- The inner `for` loop of the `case SB:` branch of `Read`.  Mirrors the Go
code exactly: the `break` statements in the source only leave the inner
`switch`, so this loop exits only by `return n, err`; the result is the
decoder state at that point together with the returned error (`none` means
the fuel ran out). -/
def subLoop (f : Factory) : Nat → DataReader → Option (DataReader × Err)
  | 0, _ => none
  | fuel + 1, r =>
    match r.src.readByte with
    | .error e => some (r, e)
    | .ok (b2, s1) =>
      if b2 = IAC then
        match s1.peek1 with
        | .error e => some ({ r with src := s1 }, e)
        | .ok (pk, s2) =>
          if pk = IAC then
            match s2.discard 1 with
            | .error e => some ({ r with src := s2 }, e)
            | .ok s3 => subLoop f fuel { r with src := s3 }
          else if pk = SE then
            match s2.discard 1 with
            | .error e => some ({ r with src := s2 }, e)
            | .ok s3 => subLoop f fuel { r with src := s3 }
          else subLoop f fuel { r with src := s2 }
      else if b2 = OPT_COMPRESS2 then
        match s1.readByte with
        | .error e => some ({ r with src := s1 }, e)
        | .ok (_, s2) =>
          match s2.readByte with
          | .error e => some ({ r with src := s2 }, e)
          | .ok (_, s3) =>
            match f s3.chunks with
            | .error e => some ({ r with src := s3 }, e)
            | .ok nc => subLoop f fuel { r with src := ⟨[], nc, Err.eof⟩ }
      else subLoop f fuel { r with src := s1 }

/-- The result of one `Read` call: the bytes written into the caller's
buffer (`n` is `out.length`), the final decoder state, and the returned
error (`none` is Go's `nil`). -/
structure ReadResult where
  out : List Byte
  rd : DataReader
  err : Option Err
deriving DecidableEq

/-- The main loop of `internalDataReader.Read`, line by line from the
source.  `cap` is `len(p)`, the space left in the caller's buffer; `acc`
holds the bytes already copied out (so `n = acc.length`). -/
def readLoop (f : Factory) : Nat → DataReader → Nat → List Byte → Option ReadResult
  | 0, _, _, _ => none
  | fuel + 1, r, cap, acc =>
    if cap = 0 then some ⟨acc, r, none⟩
    else if 0 < acc.length ∧ r.src.buffered.length < 1 then some ⟨acc, r, none⟩
    else
      match r.src.readByte with
      | .error e => some ⟨acc, r, some e⟩
      | .ok (b, s1) =>
        if b = IAC then
          match s1.peek1 with
          | .error e => some ⟨acc, { r with src := s1 }, some e⟩
          | .ok (pk, s2) =>
            if pk = DO ∨ pk = DONT then
              match s2.discard 2 with
              | .error e => some ⟨acc, { r with src := s2 }, some e⟩
              | .ok s3 => readLoop f fuel { r with src := s3 } cap acc
            else if pk = WILL ∨ pk = WONT then
              match s2.discard 1 with
              | .error e => some ⟨acc, { r with src := s2 }, some e⟩
              | .ok s3 =>
                match s3.peek1 with
                | .error e => some ⟨acc, { r with src := s3 }, some e⟩
                | .ok (opt, s4) =>
                  match DataReader.handleOption { r with src := s4 } opt with
                  | .error e => some ⟨acc, { r with src := s4 }, some e⟩
                  | .ok r2 =>
                    match r2.src.discard 1 with
                    | .error e => some ⟨acc, r2, some e⟩
                    | .ok s5 => readLoop f fuel { r2 with src := s5 } cap acc
            else if pk = IAC then
              match s2.discard 1 with
              | .error e => some ⟨acc, { r with src := s2 }, some e⟩
              | .ok s3 => readLoop f fuel { r with src := s3 } (cap - 1) (acc ++ [IAC])
            else if pk = SB then
              match subLoop f fuel { r with src := s2 } with
              | none => none
              | some (r2, e) => some ⟨acc, r2, some e⟩
            else if pk = SE then
              match s2.discard 1 with
              | .error e => some ⟨acc, { r with src := s2 }, some e⟩
              | .ok s3 => readLoop f fuel { r with src := s3 } cap acc
            else if pk = GA then
              match s2.discard 1 with
              | .error e => some ⟨acc, { r with src := s2 }, some e⟩
              | .ok s3 => readLoop f fuel { r with src := s3 } cap acc
            else some ⟨acc, { r with src := s2 }, some Err.corrupted⟩
        else readLoop f fuel { r with src := s1 } (cap - 1) (acc ++ [b])

/-- `newDataReader`: a fresh decoder over a transport whose read side will
deliver the given chunks and then the terminal error; the `bufio.Reader`
starts with an empty buffer, nothing has been written. -/
def newDataReader (chunks : List (List Byte)) (readEnd : Err) (writeFail : Option Err) : DataReader :=
  ⟨⟨[], chunks, readEnd⟩, [], writeFail⟩

/-- One call of `internalDataReader.Read` into a buffer of length `bufLen`. -/
def dataReaderRead (f : Factory) (fuel : Nat) (r : DataReader) (bufLen : Nat) : Option ReadResult :=
  readLoop f fuel r bufLen []

/-- TELNET escaping as described in the source file's documentation comment:
every byte value 255 in the data is doubled. -/
def escapeIAC : List Byte → List Byte
  | [] => []
  | b :: rest => if b = IAC then IAC :: IAC :: escapeIAC rest else b :: escapeIAC rest

/-- The wire form of a list of negotiation offers `(cmd, opt)` with
`cmd ∈ {WILL, WONT}`: each offer is `IAC cmd opt`. -/
def offerBytes : List (Byte × Byte) → List Byte
  | [] => []
  | (cmd, opt) :: rest => IAC :: cmd :: opt :: offerBytes rest

/-- The replies `handleOption` produces for a list of offers, in order. -/
def replyBytes : List (Byte × Byte) → List Byte
  | [] => []
  | (_, opt) :: rest =>
    (if opt = OPT_COMPRESS2 then [IAC, DO, opt] else [IAC, DONT, opt]) ++ replyBytes rest

/-- A factory standing in for `zlib.NewReader` in runs that never reach a
compression hand-off. -/
def zlibUnused : Factory := fun _ => Except.error (Err.zlibErr 0)

/-! ### Small computation lemmas about the buffered source -/

theorem Source.readByte_cons (b : Byte) (bs : List Byte) (ch : List (List Byte)) (re : Err) :
    Source.readByte ⟨b :: bs, ch, re⟩ = .ok (b, ⟨bs, ch, re⟩) := rfl

theorem Source.peek1_cons (b : Byte) (bs : List Byte) (ch : List (List Byte)) (re : Err) :
    Source.peek1 ⟨b :: bs, ch, re⟩ = .ok (b, ⟨b :: bs, ch, re⟩) := rfl

theorem Source.discard_one (b : Byte) (bs : List Byte) (ch : List (List Byte)) (re : Err) :
    Source.discard 1 ⟨b :: bs, ch, re⟩ = .ok ⟨bs, ch, re⟩ := rfl

theorem Source.discard_two (b c : Byte) (bs : List Byte) (ch : List (List Byte)) (re : Err) :
    Source.discard 2 ⟨b :: c :: bs, ch, re⟩ = .ok ⟨bs, ch, re⟩ := rfl

theorem escapeIAC_ne_nil (S : List Byte) (h : S ≠ []) : escapeIAC S ≠ [] := by
  cases S with
  | nil => exact absurd rfl h
  | cons b rest =>
    rw [escapeIAC]
    by_cases hb : b = IAC <;> simp [hb]

theorem offerBytes_ne_nil (offers : List (Byte × Byte)) (h : offers ≠ []) :
    offerBytes offers ≠ [] := by
  cases offers with
  | nil => exact absurd rfl h
  | cons p rest => cases p; simp [offerBytes]

/-! ### Structural lemmas about the read loop -/

/-- The first byte of a `Read` call that starts with an empty `bufio` buffer
fills the buffer from the next underlying chunk; from then on the run agrees
with a run that had the chunk in the buffer from the start. -/
theorem readLoop_fill_first (f : Factory) (fuel : Nat) (xs : List Byte)
    (ch : List (List Byte)) (re : Err) (w : List Byte) (wf : Option Err)
    (cap : Nat) (hxs : xs ≠ []) (hcap : cap ≠ 0) :
    readLoop f (fuel + 1) ⟨⟨[], xs :: ch, re⟩, w, wf⟩ cap [] =
      readLoop f (fuel + 1) ⟨⟨xs, ch, re⟩, w, wf⟩ cap [] := by
  obtain ⟨x, xs', rfl⟩ := List.exists_cons_of_ne_nil hxs
  simp [readLoop, Source.readByte, fillChunks, hcap]

/-- Plain (non-`IAC`) bytes at the front of the buffer are copied one per
iteration straight into the output. -/
theorem readLoop_plain_run (f : Factory) (P : List Byte) :
    ∀ (fuel cap : Nat) (acc rest w : List Byte) (ch : List (List Byte)) (re : Err)
      (wf : Option Err), (∀ b ∈ P, b ≠ IAC) → P.length ≤ cap → P.length ≤ fuel →
    readLoop f fuel ⟨⟨P ++ rest, ch, re⟩, w, wf⟩ cap acc =
      readLoop f (fuel - P.length) ⟨⟨rest, ch, re⟩, w, wf⟩ (cap - P.length) (acc ++ P) := by
  induction P with
  | nil => intro fuel cap acc rest w ch re wf _ _ _; simp
  | cons b P ih =>
    intro fuel cap acc rest w ch re wf hP hcap hfuel
    simp only [List.length_cons] at hcap hfuel
    obtain ⟨fuel, rfl⟩ : ∃ k, fuel = k + 1 := ⟨fuel - 1, by omega⟩
    obtain ⟨cap, rfl⟩ : ∃ k, cap = k + 1 := ⟨cap - 1, by omega⟩
    have hb : b ≠ IAC := hP b (by simp)
    simp only [readLoop, List.cons_append, Source.readByte_cons]
    rw [if_neg (by omega : ¬(cap + 1 = 0))]
    rw [if_neg (by simp : ¬(0 < acc.length ∧
      (⟨⟨b :: (P ++ rest), ch, re⟩, w, wf⟩ : DataReader).src.buffered.length < 1))]
    rw [if_neg hb]
    rw [ih fuel (cap + 1 - 1) (acc ++ [b]) rest w ch re wf
      (fun x hx => hP x (by simp [hx])) (by omega) (by omega)]
    simp

/-- Decoding a fully buffered escaped stream appends the un-escaped bytes to
the output and ends the call successfully with the source drained. -/
theorem readLoop_escape_run (f : Factory) (S : List Byte) :
    ∀ (fuel cap : Nat) (acc w : List Byte) (wf : Option Err),
      (acc ≠ [] ∨ S ≠ []) → S.length ≤ cap → (escapeIAC S).length + 1 ≤ fuel →
    readLoop f fuel ⟨⟨escapeIAC S, [], Err.eof⟩, w, wf⟩ cap acc =
      some ⟨acc ++ S, ⟨⟨[], [], Err.eof⟩, w, wf⟩, none⟩ := by
  induction S with
  | nil =>
    intro fuel cap acc w wf hne _ hfuel
    have hacc : acc ≠ [] := by
      rcases hne with h | h
      · exact h
      · exact absurd rfl h
    simp only [escapeIAC, List.length_nil] at hfuel ⊢
    obtain ⟨fuel, rfl⟩ : ∃ k, fuel = k + 1 := ⟨fuel - 1, by omega⟩
    by_cases hc : cap = 0
    · simp [readLoop, hc]
    · simp [readLoop, hc, List.length_pos.mpr hacc]
  | cons b S ih =>
    intro fuel cap acc w wf _ hcap hfuel
    simp only [List.length_cons] at hcap
    have hcap0 : ¬(cap = 0) := by omega
    by_cases hb : b = IAC
    · subst hb
      have hesc : escapeIAC (IAC :: S) = IAC :: IAC :: escapeIAC S := by simp [escapeIAC]
      rw [hesc] at hfuel
      simp only [List.length_cons] at hfuel
      obtain ⟨fuel, rfl⟩ : ∃ k, fuel = k + 1 := ⟨fuel - 1, by omega⟩
      have h1 : ¬(IAC = DO ∨ IAC = DONT) := by decide
      have h2 : ¬(IAC = WILL ∨ IAC = WONT) := by decide
      rw [hesc]
      simp only [readLoop]
      simp [hcap0, h1, h2, Source.readByte_cons, Source.peek1_cons, Source.discard_one]
      rw [ih fuel (cap - 1) (acc ++ [IAC]) w wf (Or.inl (by simp)) (by omega) (by omega)]
      simp
    · have hesc : escapeIAC (b :: S) = b :: escapeIAC S := by simp [escapeIAC, hb]
      rw [hesc] at hfuel
      simp only [List.length_cons] at hfuel
      obtain ⟨fuel, rfl⟩ : ∃ k, fuel = k + 1 := ⟨fuel - 1, by omega⟩
      rw [hesc]
      simp only [readLoop]
      simp [hcap0, hb, Source.readByte_cons]
      rw [ih fuel (cap - 1) (acc ++ [b]) w wf (Or.inl (by simp)) (by omega) (by omega)]
      simp

/-- Decoding a fully buffered run of `WILL`/`WONT` offers writes the reply
for each offer in order, delivers no output, and ends with `io.EOF` when the
source is exhausted. -/
theorem readLoop_offer_run (f : Factory) (offers : List (Byte × Byte)) :
    ∀ (fuel cap : Nat) (w : List Byte),
      (∀ p ∈ offers, p.1 = WILL ∨ p.1 = WONT) → offers.length + 1 ≤ fuel → cap ≠ 0 →
    readLoop f fuel ⟨⟨offerBytes offers, [], Err.eof⟩, w, none⟩ cap [] =
      some ⟨[], ⟨⟨[], [], Err.eof⟩, w ++ replyBytes offers, none⟩, some Err.eof⟩ := by
  induction offers with
  | nil =>
    intro fuel cap w _ hfuel hcap
    obtain ⟨fuel, rfl⟩ : ∃ k, fuel = k + 1 := ⟨fuel - 1, by omega⟩
    simp [readLoop, offerBytes, replyBytes, Source.readByte, fillChunks, hcap]
  | cons p offers ih =>
    obtain ⟨cmd, opt⟩ := p
    intro fuel cap w hcmds hfuel hcap
    simp only [List.length_cons] at hfuel
    obtain ⟨fuel, rfl⟩ : ∃ k, fuel = k + 1 := ⟨fuel - 1, by omega⟩
    have hcmd : cmd = WILL ∨ cmd = WONT := hcmds (cmd, opt) (by simp)
    have h1 : ¬(cmd = DO ∨ cmd = DONT) := by
      rcases hcmd with h | h <;> subst h <;> decide
    have hoffer : offerBytes ((cmd, opt) :: offers) = IAC :: cmd :: opt :: offerBytes offers := rfl
    have htail : ∀ q ∈ offers, q.1 = WILL ∨ q.1 = WONT := fun q hq => hcmds q (by simp [hq])
    rw [hoffer]
    simp only [readLoop]
    by_cases ho : opt = OPT_COMPRESS2 <;>
      simp [hcap, h1, hcmd, ho, Source.readByte_cons, Source.peek1_cons, Source.discard_one,
        DataReader.handleOption, DataReader.write] <;>
      rw [ih fuel cap _ htail (by omega) hcap] <;>
      simp [replyBytes, ho]

/-- The read loop never outputs more than the accumulated bytes plus the
remaining buffer space: each output byte strictly consumes buffer space. -/
theorem readLoop_out_le (f : Factory) :
    ∀ (fuel : Nat) (r : DataReader) (cap : Nat) (acc : List Byte) (res : ReadResult),
      readLoop f fuel r cap acc = some res → res.out.length ≤ acc.length + cap := by
  intro fuel
  induction fuel with
  | zero =>
    intro r cap acc res h
    simp [readLoop] at h
  | succ n ih =>
    intro r cap acc res h
    simp only [readLoop] at h
    repeat' split at h
    all_goals first
      | exact Option.noConfusion h
      | (injection h with h2; subst h2; simp)
      | (have hx := ih _ _ _ _ h;
         simp only [List.length_append, List.length_cons, List.length_nil] at hx ⊢; omega)

/-! ### The claims -/

/-- Claim C1, behavior of the code at the flagged input: decoding
`{10, 255,250, 1,2,3, 255,240, 20}` does not deliver `{10, 20}`.  The
sub-negotiation scan loop of the source has no normal exit (each `break`
only leaves the inner `switch`), so after consuming the terminator
`255,240` it keeps scanning: the payload byte `20` that follows the
sub-negotiation is swallowed inside the scan, and the call returns output
`{10}` together with `io.EOF` once the source is exhausted, with nothing
written to the transport and the source fully drained. -/
theorem c1_scan_consumes_trailing_data :
    dataReaderRead zlibUnused 32
        (newDataReader [[10, 255, 250, 1, 2, 3, 255, 240, 20]] Err.eof none) 16 =
      some ⟨[10], ⟨⟨[], [], Err.eof⟩, [], none⟩, some Err.eof⟩ := rfl

/-- Claim C2: decoding un-does TELNET escaping.  For every byte sequence
`S`, feeding `escapeIAC S` (every 255 doubled) through `Read` with a buffer
of at least `S.length` bytes yields exactly `S`, a `nil` error, no bytes
written to the transport, and a drained source. -/
theorem c2_round_trip (f : Factory) (S : List Byte) (cap fuel : Nat)
    (hS : S ≠ []) (hcap : S.length ≤ cap) (hfuel : (escapeIAC S).length + 1 ≤ fuel) :
    dataReaderRead f fuel (newDataReader [escapeIAC S] Err.eof none) cap =
      some ⟨S, ⟨⟨[], [], Err.eof⟩, [], none⟩, none⟩ := by
  have hlen : 0 < S.length := List.length_pos.mpr hS
  have hcap0 : cap ≠ 0 := by omega
  obtain ⟨fuel, rfl⟩ : ∃ k, fuel = k + 1 := ⟨fuel - 1, by omega⟩
  unfold dataReaderRead newDataReader
  rw [readLoop_fill_first f fuel (escapeIAC S) [] Err.eof [] none cap (escapeIAC_ne_nil S hS) hcap0]
  have h := readLoop_escape_run f S (fuel + 1) cap [] [] none (Or.inr hS) hcap hfuel
  simpa using h

/-- Witness for C2 at the escape-law example of the spec: decoding
`{1,55,2,155,3,255,255,4,40,255,255,30,20}` yields
`{1,55,2,155,3,255,4,40,255,30,20}`. -/
theorem c2_round_trip_witness :
    dataReaderRead zlibUnused 20
        (newDataReader [[1, 55, 2, 155, 3, 255, 255, 4, 40, 255, 255, 30, 20]] Err.eof none) 16 =
      some ⟨[1, 55, 2, 155, 3, 255, 4, 40, 255, 30, 20], ⟨⟨[], [], Err.eof⟩, [], none⟩, none⟩ :=
  c2_round_trip zlibUnused [1, 55, 2, 155, 3, 255, 4, 40, 255, 30, 20] 16 20
    (by decide) (by decide) (by decide)

/-- Claim C3: decoding a run of `WILL`/`WONT` offers delivers zero output
bytes and writes exactly one three-byte reply per offer to the transport —
`{255, 253, 86}` for the compression identifier 86, `{255, 254, opt}` for
every other option — with no state kept: each offer in the list, repeated or
not, produces its own fresh reply, in order. -/
theorem c3_offer_replies (f : Factory) (offers : List (Byte × Byte)) (cap fuel : Nat)
    (hoff : offers ≠ []) (hcmds : ∀ p ∈ offers, p.1 = WILL ∨ p.1 = WONT)
    (hfuel : offers.length + 2 ≤ fuel) (hcap : cap ≠ 0) :
    dataReaderRead f fuel (newDataReader [offerBytes offers] Err.eof none) cap =
      some ⟨[], ⟨⟨[], [], Err.eof⟩, replyBytes offers, none⟩, some Err.eof⟩ := by
  obtain ⟨fuel, rfl⟩ : ∃ k, fuel = k + 1 := ⟨fuel - 1, by omega⟩
  unfold dataReaderRead newDataReader
  rw [readLoop_fill_first f fuel (offerBytes offers) [] Err.eof [] none cap
    (offerBytes_ne_nil offers hoff) hcap]
  have h := readLoop_offer_run f offers (fuel + 1) cap [] hcmds (by omega) hcap
  simpa using h

/-- Witness for C3: the offers WILL 86, WONT 86, WILL 1 produce exactly the
replies `{255,253,86, 255,253,86, 255,254,1}` and no output. -/
theorem c3_offer_replies_witness :
    dataReaderRead zlibUnused 20
        (newDataReader [[255, 251, 86, 255, 252, 86, 255, 251, 1]] Err.eof none) 8 =
      some ⟨[], ⟨⟨[], [], Err.eof⟩, [255, 253, 86, 255, 253, 86, 255, 254, 1], none⟩,
        some Err.eof⟩ :=
  c3_offer_replies zlibUnused [(251, 86), (252, 86), (251, 1)] 8 20
    (by decide) (by decide) (by decide) (by decide)

/-- Claim C4: when the byte after a 255 marker is none of
DO, DONT, WILL, WONT, IAC, SB, SE, GA, the call fails with the distinct
corrupted-stream error (a different value from `io.EOF` and from every
transport I/O error), outputs nothing for that sequence, writes nothing,
and returns the bytes decoded before it. -/
theorem c4_corrupted (f : Factory) (P : List Byte) (x : Byte) (cap fuel : Nat)
    (hP : ∀ b ∈ P, b ≠ IAC)
    (hx1 : x ≠ DO) (hx2 : x ≠ DONT) (hx3 : x ≠ WILL) (hx4 : x ≠ WONT)
    (hx5 : x ≠ IAC) (hx6 : x ≠ SB) (hx7 : x ≠ SE) (hx8 : x ≠ GA)
    (hcap : P.length + 1 ≤ cap) (hfuel : P.length + 2 ≤ fuel) :
    dataReaderRead f fuel (newDataReader [P ++ [IAC, x]] Err.eof none) cap =
      some ⟨P, ⟨⟨[x], [], Err.eof⟩, [], none⟩, some Err.corrupted⟩ ∧
    (Err.corrupted ≠ Err.eof ∧ ∀ k, Err.corrupted ≠ Err.ioErr k) := by
  refine ⟨?_, by simp, fun k => by simp⟩
  obtain ⟨fuel, rfl⟩ : ∃ k, fuel = k + 1 := ⟨fuel - 1, by omega⟩
  unfold dataReaderRead newDataReader
  rw [readLoop_fill_first f fuel (P ++ [IAC, x]) [] Err.eof [] none cap (by simp) (by omega)]
  rw [readLoop_plain_run f P (fuel + 1) cap [] [IAC, x] [] [] Err.eof none hP (by omega) (by omega)]
  obtain ⟨t, ht⟩ : ∃ t, fuel + 1 - P.length = t + 1 := ⟨fuel - P.length, by omega⟩
  rw [ht]
  simp [readLoop, (show ¬(cap - P.length = 0) by omega), hx1, hx2, hx3, hx4, hx5, hx6, hx7, hx8,
    Source.readByte_cons, Source.peek1_cons]

/-- Witness for C4: decoding `{3, 4, 255, 17}` outputs `{3, 4}` and fails
with the corrupted-stream error. -/
theorem c4_corrupted_witness :
    (dataReaderRead zlibUnused 20 (newDataReader [[3, 4, 255, 17]] Err.eof none) 8 =
      some ⟨[3, 4], ⟨⟨[17], [], Err.eof⟩, [], none⟩, some Err.corrupted⟩) ∧
    (Err.corrupted ≠ Err.eof ∧ ∀ k, Err.corrupted ≠ Err.ioErr k) :=
  c4_corrupted zlibUnused [3, 4] 17 8 20 (by decide) (by decide) (by decide) (by decide)
    (by decide) (by decide) (by decide) (by decide) (by decide) (by decide) (by decide)

/-- Claim C5: a `255, DO, opt` or `255, DONT, opt` sequence is consumed
whole — the command byte and the option byte — with no output byte produced
and no byte written to the transport: decoding continues on the rest of the
stream with the output accumulator and the write log unchanged. -/
theorem c5_do_dont_swallowed (f : Factory) (cmd opt : Byte) (rest acc w : List Byte)
    (ch : List (List Byte)) (re : Err) (wf : Option Err) (fuel cap : Nat)
    (hcmd : cmd = DO ∨ cmd = DONT) (hcap : cap ≠ 0) :
    readLoop f (fuel + 1) ⟨⟨IAC :: cmd :: opt :: rest, ch, re⟩, w, wf⟩ cap acc =
      readLoop f fuel ⟨⟨rest, ch, re⟩, w, wf⟩ cap acc := by
  rcases hcmd with h | h <;> subst h <;>
    simp only [readLoop] <;>
    simp [hcap, Source.readByte_cons, Source.peek1_cons, Source.discard_two]

/-- Witness for C5: `255, DO, 5` before a data byte 7 is swallowed whole. -/
theorem c5_do_dont_swallowed_witness :
    readLoop zlibUnused 10 ⟨⟨[255, 253, 5, 7], [], Err.eof⟩, [], none⟩ 4 [] =
      readLoop zlibUnused 9 ⟨⟨[7], [], Err.eof⟩, [], none⟩ 4 [] :=
  c5_do_dont_swallowed zlibUnused 253 5 [7] [] [] [] Err.eof none 9 4 (Or.inl rfl) (by decide)

/-- Claim C6: once at least one byte has been produced and the buffer of
the current source is empty, the call returns success with the count so
far; the not-yet-pulled chunks of the underlying reader are left untouched
(no further blocking pull is issued). -/
theorem c6_stops_at_buffer_end (f : Factory) (c1 : List Byte) (rest : List (List Byte))
    (re : Err) (cap fuel : Nat) (h1 : c1 ≠ []) (hplain : ∀ b ∈ c1, b ≠ IAC)
    (hcap : c1.length < cap) (hfuel : c1.length + 2 ≤ fuel) :
    dataReaderRead f fuel (newDataReader (c1 :: rest) re none) cap =
      some ⟨c1, ⟨⟨[], rest, re⟩, [], none⟩, none⟩ := by
  obtain ⟨fuel, rfl⟩ : ∃ k, fuel = k + 1 := ⟨fuel - 1, by omega⟩
  unfold dataReaderRead newDataReader
  rw [readLoop_fill_first f fuel c1 rest re [] none cap h1 (by omega)]
  have hp := readLoop_plain_run f c1 (fuel + 1) cap [] [] [] rest re none hplain
    (by omega) (by omega)
  simp only [List.append_nil] at hp
  rw [hp]
  obtain ⟨t, ht⟩ : ∃ t, fuel + 1 - c1.length = t + 1 := ⟨fuel - c1.length, by omega⟩
  rw [ht]
  simp [readLoop, (show ¬(cap - c1.length = 0) by omega), List.length_pos.mpr h1]

/-- Witness for C6: with `{5, 7}` buffered and a later chunk `{9}` not yet
pulled, the call returns `{5, 7}` with a `nil` error and leaves `{9}` in
the underlying reader. -/
theorem c6_stops_at_buffer_end_witness :
    dataReaderRead zlibUnused 20 (newDataReader [[5, 7], [9]] Err.eof none) 8 =
      some ⟨[5, 7], ⟨⟨[], [[9]], Err.eof⟩, [], none⟩, none⟩ :=
  c6_stops_at_buffer_end zlibUnused [5, 7] [[9]] Err.eof 8 20
    (by decide) (by decide) (by decide) (by decide)

/-- Claim C7: an I/O failure is propagated unchanged and ends the call at
once, together with the count of bytes already decoded.  First conjunct: the
underlying reader fails with an arbitrary error `e` while the decoder pulls
the byte after a 255 marker — `Read` returns the bytes decoded before the
marker and exactly `e`.  Second conjunct: writing the negotiation reply to
a `WILL` offer fails with `e` — `Read` returns the bytes decoded before the
offer and exactly `e`, with nothing recorded as written. -/
theorem c7_error_propagation (f : Factory) (P : List Byte) (e : Err) (opt : Byte)
    (cap fuel : Nat) (hP : ∀ b ∈ P, b ≠ IAC)
    (hcap : P.length + 1 ≤ cap) (hfuel : P.length + 2 ≤ fuel) :
    dataReaderRead f fuel (newDataReader [P ++ [IAC]] e none) cap =
      some ⟨P, ⟨⟨[], [], e⟩, [], none⟩, some e⟩ ∧
    dataReaderRead f fuel (newDataReader [P ++ [IAC, WILL, opt]] Err.eof (some e)) cap =
      some ⟨P, ⟨⟨[opt], [], Err.eof⟩, [], some e⟩, some e⟩ := by
  obtain ⟨fuel, rfl⟩ : ∃ k, fuel = k + 1 := ⟨fuel - 1, by omega⟩
  have hcap0 : cap ≠ 0 := by omega
  constructor
  · unfold dataReaderRead newDataReader
    rw [readLoop_fill_first f fuel (P ++ [IAC]) [] e [] none cap (by simp) hcap0]
    rw [readLoop_plain_run f P (fuel + 1) cap [] [IAC] [] [] e none hP (by omega) (by omega)]
    obtain ⟨t, ht⟩ : ∃ t, fuel + 1 - P.length = t + 1 := ⟨fuel - P.length, by omega⟩
    rw [ht]
    simp [readLoop, (show ¬(cap - P.length = 0) by omega),
      Source.readByte_cons, Source.peek1, fillChunks]
  · unfold dataReaderRead newDataReader
    rw [readLoop_fill_first f fuel (P ++ [IAC, WILL, opt]) [] Err.eof [] (some e) cap
      (by simp) hcap0]
    rw [readLoop_plain_run f P (fuel + 1) cap [] [IAC, WILL, opt] [] [] Err.eof (some e) hP
      (by omega) (by omega)]
    obtain ⟨t, ht⟩ : ∃ t, fuel + 1 - P.length = t + 1 := ⟨fuel - P.length, by omega⟩
    rw [ht]
    have h1 : ¬(WILL = DO ∨ WILL = DONT) := by decide
    simp [readLoop, (show ¬(cap - P.length = 0) by omega), h1,
      Source.readByte_cons, Source.peek1_cons, Source.discard_one,
      DataReader.handleOption, DataReader.write]

/-- Witness for C7 with the concrete transport error `ioErr 7` after the
plain bytes `{3, 4}`. -/
theorem c7_error_propagation_witness :
    (dataReaderRead zlibUnused 20 (newDataReader [[3, 4, 255]] (Err.ioErr 7) none) 8 =
      some ⟨[3, 4], ⟨⟨[], [], Err.ioErr 7⟩, [], none⟩, some (Err.ioErr 7)⟩) ∧
    (dataReaderRead zlibUnused 20
        (newDataReader [[3, 4, 255, 251, 86]] Err.eof (some (Err.ioErr 7))) 8 =
      some ⟨[3, 4], ⟨⟨[86], [], Err.eof⟩, [], some (Err.ioErr 7)⟩, some (Err.ioErr 7)⟩) :=
  c7_error_propagation zlibUnused [3, 4] (Err.ioErr 7) 86 8 20
    (by decide) (by decide) (by decide)

/-- Claim C8 counterexample: a byte 86 that is not the sub-negotiation's
type byte still triggers the hand-off.  In `{255,250, 1, 86, 255,240}` the
type byte is 1 and 86 is payload, yet the decompressing-stream factory is
invoked: its construction error `zlibErr 3` becomes the call's error, which
could not happen if only the type byte triggered the hand-off. -/
theorem c8_payload_byte_triggers :
    dataReaderRead (fun _ => Except.error (Err.zlibErr 3)) 32
        (newDataReader [[255, 250, 1, 86, 255, 240]] Err.eof none) 8 =
      some ⟨[], ⟨⟨[], [], Err.eof⟩, [], none⟩, some (Err.zlibErr 3)⟩ := rfl

/-- Claim C8 as amended: any byte 86 consumed by the sub-negotiation scan —
at the type-byte position or anywhere else — triggers the hand-off: the two
bytes after it are consumed from the buffered source, the factory is applied
to the transport's raw read side (the chunks not yet buffered), and on
success the source is replaced by an empty-buffer reader over the factory's
output, from which all further pulls of the scan come; on failure the
factory's error is returned.  Second conjunct: at the Read level, a factory
failure after a type-byte 86 surfaces as the call's error, unchanged. -/
theorem c8_handoff_any_scanned_byte (f : Factory) (x y : Byte) (restBuf w : List Byte)
    (ch : List (List Byte)) (re : Err) (wf : Option Err) (fuel : Nat) (e : Err) :
    (subLoop f (fuel + 1) ⟨⟨OPT_COMPRESS2 :: x :: y :: restBuf, ch, re⟩, w, wf⟩ =
      match f ch with
      | .error er => some (⟨⟨restBuf, ch, re⟩, w, wf⟩, er)
      | .ok nc => subLoop f fuel ⟨⟨[], nc, Err.eof⟩, w, wf⟩) ∧
    dataReaderRead (fun _ => Except.error e) 32
        (newDataReader [[255, 250, 86, 255, 240]] Err.eof none) 8 =
      some ⟨[], ⟨⟨[], [], Err.eof⟩, [], none⟩, some e⟩ :=
  ⟨rfl, rfl⟩

/-- Claim C9, behavior of the code at a failing input: the hand-off is not
lossless.  With the whole announcement and a following payload byte 120
already slurped into the old buffer, and a later raw chunk `{99}`, the swap
discards the buffered 120: the factory receives only the raw remainder
`[[99]]` (first conjunct, where the factory is the identity so its input is
observable), and the full `Read` call ends with the byte 120 appearing
neither in the output nor anywhere in the final state. -/
theorem c9_swap_drops_old_buffer :
    (∀ fuel : Nat,
      subLoop (fun ch => Except.ok ch) (fuel + 1)
          ⟨⟨OPT_COMPRESS2 :: IAC :: SE :: [120], [[99]], Err.eof⟩, [], none⟩ =
        subLoop (fun ch => Except.ok ch) fuel ⟨⟨[], [[99]], Err.eof⟩, [], none⟩) ∧
    dataReaderRead (fun ch => Except.ok ch) 32
        (newDataReader [[255, 250, 86, 255, 240, 120], [99]] Err.eof none) 8 =
      some ⟨[], ⟨⟨[], [], Err.eof⟩, [], none⟩, some Err.eof⟩ :=
  ⟨fun _ => rfl, rfl⟩

/-- Claim C10: `Read` never writes past the caller's buffer — the output
length is at most the buffer length — and a zero-length buffer returns
immediately with count 0, a `nil` error, and the decoder untouched (no byte
consumed). -/
theorem c10_read_respects_buffer (f : Factory) (fuel cap : Nat) (r : DataReader)
    (res : ReadResult) (h : dataReaderRead f fuel r cap = some res) :
    res.out.length ≤ cap ∧ (cap = 0 → fuel ≠ 0 → res = ⟨[], r, none⟩) := by
  constructor
  · have hx := readLoop_out_le f fuel r cap [] res h
    simpa using hx
  · intro hc hf
    subst hc
    obtain ⟨m, rfl⟩ : ∃ m, fuel = m + 1 := ⟨fuel - 1, by omega⟩
    unfold dataReaderRead at h
    simp only [readLoop, if_pos rfl] at h
    exact (Option.some.injEq _ _ ▸ h : _ = res).symm

/-- Witness for C10 on a zero-length buffer. -/
theorem c10_read_respects_buffer_witness :
    ((⟨[], ⟨⟨[], [[5]], Err.eof⟩, [], none⟩, none⟩ : ReadResult).out.length ≤ 0) ∧
      ((0 : Nat) = 0 → (3 : Nat) ≠ 0 →
        (⟨[], ⟨⟨[], [[5]], Err.eof⟩, [], none⟩, none⟩ : ReadResult) =
          ⟨[], ⟨⟨[], [[5]], Err.eof⟩, [], none⟩, none⟩) :=
  c10_read_respects_buffer zlibUnused 3 0 ⟨⟨[], [[5]], Err.eof⟩, [], none⟩
    ⟨[], ⟨⟨[], [[5]], Err.eof⟩, [], none⟩, none⟩ rfl

end GoTelnet
